import Mathlib

/-!
Verification development for `src/football_sync.py` (BAPPS).

The program is a small ETL pipeline: it fetches Premier League standings and
recent matches as JSON from api.football-data.org, flattens them into row
dictionaries, and writes them to two Supabase tables (`standings` via
delete-then-insert, `matches` via upsert on `match_id`), driven by a polling
scheduler that triggers a daily sync at 06:00.

Shallow embedding choices:
* JSON documents are an inductive `Json`; Python subscripting, `in`, `len`,
  `.get` and iteration are embedded as `Except String`-valued functions whose
  `error` case models the corresponding uncaught Python exception
  (KeyError/TypeError/IndexError/AttributeError carrying a message).
* Wall-clock instants (`datetime.now()`) are seconds since the epoch (`Nat`).
  ISO-8601 timestamp strings compare exactly like the instants they denote, so
  the `updated_at` column is embedded as that `Nat`.
* The single outbound HTTP request of each fetch function is embedded as one
  `HttpOutcome` argument (the functions issue exactly one request: no retry,
  no backoff).  `netError` is `requests.get` raising a
  `requests.exceptions.RequestException`; `response status body` is a
  delivered response, with `body = none` when the body is not JSON
  (`response.json()` then raises `requests.exceptions.JSONDecodeError`, a
  subclass of `RequestException` since requests 2.27).
  `raise_for_status()` raises `HTTPError` (also a `RequestException`) exactly
  for status codes 400–599.
* The Supabase tables are lists of rows inside a `DB` state; whether a write
  call raises is an explicit oracle argument, since the remote database is an
  external collaborator.  A raised write error is an `Exception`, which the
  sync functions catch.
* A function returning `Except.error msg` models a Python exception escaping
  that function uncaught.
-/

inductive Json where
  | null : Json
  | num (n : Int) : Json
  | str (s : String) : Json
  | arr (xs : List Json) : Json
  | obj (fields : List (String × Json)) : Json
  deriving Repr

mutual

def Json.beq : Json → Json → Bool
  | Json.null, Json.null => true
  | Json.num a, Json.num b => a == b
  | Json.str a, Json.str b => a == b
  | Json.arr a, Json.arr b => Json.beqList a b
  | Json.obj a, Json.obj b => Json.beqObj a b
  | _, _ => false

def Json.beqList : List Json → List Json → Bool
  | [], [] => true
  | x :: xs, y :: ys => Json.beq x y && Json.beqList xs ys
  | _, _ => false

def Json.beqObj : List (String × Json) → List (String × Json) → Bool
  | [], [] => true
  | (k1, v1) :: xs, (k2, v2) :: ys => k1 == k2 && Json.beq v1 v2 && Json.beqObj xs ys
  | _, _ => false

end

mutual

theorem Json.beq_iff : ∀ (a b : Json), Json.beq a b = true ↔ a = b
  | Json.null, Json.null => by simp [Json.beq]
  | Json.null, Json.num _ => by simp [Json.beq]
  | Json.null, Json.str _ => by simp [Json.beq]
  | Json.null, Json.arr _ => by simp [Json.beq]
  | Json.null, Json.obj _ => by simp [Json.beq]
  | Json.num _, Json.null => by simp [Json.beq]
  | Json.num a, Json.num b => by simp [Json.beq]
  | Json.num _, Json.str _ => by simp [Json.beq]
  | Json.num _, Json.arr _ => by simp [Json.beq]
  | Json.num _, Json.obj _ => by simp [Json.beq]
  | Json.str _, Json.null => by simp [Json.beq]
  | Json.str _, Json.num _ => by simp [Json.beq]
  | Json.str a, Json.str b => by simp [Json.beq]
  | Json.str _, Json.arr _ => by simp [Json.beq]
  | Json.str _, Json.obj _ => by simp [Json.beq]
  | Json.arr _, Json.null => by simp [Json.beq]
  | Json.arr _, Json.num _ => by simp [Json.beq]
  | Json.arr _, Json.str _ => by simp [Json.beq]
  | Json.arr a, Json.arr b => by simp [Json.beq, Json.beqList_iff a b]
  | Json.arr _, Json.obj _ => by simp [Json.beq]
  | Json.obj _, Json.null => by simp [Json.beq]
  | Json.obj _, Json.num _ => by simp [Json.beq]
  | Json.obj _, Json.str _ => by simp [Json.beq]
  | Json.obj _, Json.arr _ => by simp [Json.beq]
  | Json.obj a, Json.obj b => by simp [Json.beq, Json.beqObj_iff a b]

theorem Json.beqList_iff : ∀ (a b : List Json), Json.beqList a b = true ↔ a = b
  | [], [] => by simp [Json.beqList]
  | [], _ :: _ => by simp [Json.beqList]
  | _ :: _, [] => by simp [Json.beqList]
  | x :: xs, y :: ys => by
      simp [Json.beqList, Json.beq_iff x y, Json.beqList_iff xs ys]

theorem Json.beqObj_iff : ∀ (a b : List (String × Json)), Json.beqObj a b = true ↔ a = b
  | [], [] => by simp [Json.beqObj]
  | [], _ :: _ => by simp [Json.beqObj]
  | _ :: _, [] => by simp [Json.beqObj]
  | (k1, v1) :: xs, (k2, v2) :: ys => by
      simp [Json.beqObj, Json.beq_iff v1 v2, Json.beqObj_iff xs ys, and_assoc]

end

instance : DecidableEq Json := fun a b => decidable_of_iff _ (Json.beq_iff a b)

instance : BEq Json := ⟨Json.beq⟩

instance : LawfulBEq Json where
  eq_of_beq h := (Json.beq_iff _ _).mp h
  rfl := (Json.beq_iff _ _).mpr rfl

/-- Python `x[k]` for a string key `k`: a dict lookup that raises `KeyError`
when the key is missing and `TypeError` when `x` is not a dict. -/
def Json.getKey : Json → String → Except String Json
  | Json.obj fields, k =>
    match fields.find? (fun p => p.1 == k) with
    | some p => Except.ok p.2
    | none => Except.error ("KeyError: " ++ k)
  | _, k => Except.error ("TypeError: value not subscriptable by " ++ k)

/-- Python `k in x` for a string `k`: key membership for a dict, element
membership for a list; `TypeError` for non-containers.  (The substring test
on strings is not needed by any fetched document shape.) -/
def Json.pyContains : Json → String → Except String Bool
  | Json.obj fields, k => Except.ok (fields.any (fun p => p.1 == k))
  | Json.arr xs, k => Except.ok (xs.any (fun x => Json.beq x (Json.str k)))
  | _, _ => Except.error "TypeError: argument not a container"

/-- Python `x.get(k, dflt)`: dict lookup with a default; `AttributeError`
when `x` is not a dict. -/
def Json.pyGetD : Json → String → Json → Except String Json
  | Json.obj fields, k, dflt =>
    match fields.find? (fun p => p.1 == k) with
    | some p => Except.ok p.2
    | none => Except.ok dflt
  | _, _, _ => Except.error "AttributeError: value has no method get"

/-- Python `len(x)`: defined for lists, dicts and strings, `TypeError`
otherwise. -/
def Json.pyLen : Json → Except String Nat
  | Json.arr xs => Except.ok xs.length
  | Json.obj fields => Except.ok fields.length
  | Json.str s => Except.ok s.length
  | _ => Except.error "TypeError: object has no len()"

/-- Python `x[0]`: first element of a list (`IndexError` when empty),
first character of a string, `KeyError` for a dict without the key `0`,
`TypeError` otherwise. -/
def Json.pyFirst : Json → Except String Json
  | Json.arr (x :: _) => Except.ok x
  | Json.arr [] => Except.error "IndexError: list index out of range"
  | Json.str s =>
    match s.toList with
    | c :: _ => Except.ok (Json.str (String.mk [c]))
    | [] => Except.error "IndexError: string index out of range"
  | Json.obj _ => Except.error "KeyError: 0"
  | _ => Except.error "TypeError: value not subscriptable by 0"

/-- Python `for x in y`: the sequence iterated over — the elements of a list,
the characters of a string, the keys of a dict; `TypeError` otherwise. -/
def Json.pyIter : Json → Except String (List Json)
  | Json.arr xs => Except.ok xs
  | Json.str s => Except.ok (s.toList.map (fun c => Json.str (String.mk [c])))
  | Json.obj fields => Except.ok (fields.map (fun p => Json.str p.1))
  | _ => Except.error "TypeError: object is not iterable"

/-- Number of whole days in a timestamp (calendar date of an instant). -/
def dayOf (t : Nat) : Nat := t / 86400

/-- Midnight at the start of the calendar date of instant `t`: the instant
denoted by `datetime.now().date().isoformat()`, against which ISO timestamp
strings are compared by the standings delete filter. -/
def startOfDay (t : Nat) : Nat := t / 86400 * 86400

/-- One row dictionary of the `standings` table, exactly the fields built in
`get_premier_league_standings`.  Field values are copied from the fetched
JSON unconverted, except `updated_at`, which is the freshly stamped
`datetime.now().isoformat()` instant. -/
structure StandingRow where
  position : Json
  team_name : Json
  team_id : Json
  played_games : Json
  won : Json
  draw : Json
  lost : Json
  points : Json
  goals_for : Json
  goals_against : Json
  goal_difference : Json
  updated_at : Nat
  deriving Repr, DecidableEq

/-- One row dictionary of the `matches` table, exactly the fields built in
`get_recent_matches`. -/
structure MatchRow where
  match_id : Json
  match_date : Json
  status : Json
  matchday : Json
  home_team : Json
  home_team_id : Json
  away_team : Json
  away_team_id : Json
  home_score : Json
  away_score : Json
  updated_at : Nat
  deriving Repr, DecidableEq

/-- The dictionary appended for one entry of the standings table array
(`football_sync.py` lines 38–51).  Any missing nested field raises a
`KeyError` that nothing in the source catches. -/
def mapStandingEntry (now : Nat) (team : Json) : Except String StandingRow := do
  let pos ← team.getKey "position"
  let tm ← team.getKey "team"
  let name ← tm.getKey "name"
  let tid ← tm.getKey "id"
  let pg ← team.getKey "playedGames"
  let w ← team.getKey "won"
  let d ← team.getKey "draw"
  let l ← team.getKey "lost"
  let pts ← team.getKey "points"
  let gf ← team.getKey "goalsFor"
  let ga ← team.getKey "goalsAgainst"
  let gd ← team.getKey "goalDifference"
  Except.ok { position := pos, team_name := name, team_id := tid,
              played_games := pg, won := w, draw := d, lost := l,
              points := pts, goals_for := gf, goals_against := ga,
              goal_difference := gd, updated_at := now }

/-- The `for team in ...: standings.append(...)` loop: rows in input order;
an exception while mapping one entry aborts the whole loop. -/
def mapStandings (now : Nat) : List Json → Except String (List StandingRow)
  | [] => Except.ok []
  | t :: ts => do
    let r ← mapStandingEntry now t
    let rs ← mapStandings now ts
    Except.ok (r :: rs)

/-- The dictionary appended for one fetched match
(`football_sync.py` lines 76–88). -/
def mapMatch (now : Nat) (m : Json) : Except String MatchRow := do
  let mid ← m.getKey "id"
  let mdate ← m.getKey "utcDate"
  let mstat ← m.getKey "status"
  let mday ← m.getKey "matchday"
  let ht ← m.getKey "homeTeam"
  let htName ← ht.getKey "name"
  let htId ← ht.getKey "id"
  let aw ← m.getKey "awayTeam"
  let awName ← aw.getKey "name"
  let awId ← aw.getKey "id"
  let sc ← m.getKey "score"
  let ft ← sc.getKey "fullTime"
  let hs ← ft.getKey "home"
  let asc ← ft.getKey "away"
  Except.ok { match_id := mid, match_date := mdate, status := mstat,
              matchday := mday, home_team := htName, home_team_id := htId,
              away_team := awName, away_team_id := awId, home_score := hs,
              away_score := asc, updated_at := now }

/-- The `for match in ...: matches.append(...)` loop. -/
def mapMatches (now : Nat) : List Json → Except String (List MatchRow)
  | [] => Except.ok []
  | m :: ms => do
    let r ← mapMatch now m
    let rs ← mapMatches now ms
    Except.ok (r :: rs)

/-- Outcome of the single `requests.get` call of a fetch function:
either the request raises a `requests.exceptions.RequestException`
(`netError`), or a response is delivered with a status code and a body
(`body = none` when the body is not JSON). -/
inductive HttpOutcome where
  | netError (msg : String)
  | response (statusCode : Nat) (body : Option Json)
  deriving Repr, DecidableEq

/-- `response.raise_for_status()` raises `requests.exceptions.HTTPError`
exactly for 4xx and 5xx status codes. -/
def httpErrorStatus (code : Nat) : Bool := 400 ≤ code && code < 600

/-- Lines 35–52: build the standings row list from a parsed response body. -/
def standingsOfData (now : Nat) (data : Json) : Except String (List StandingRow) := do
  let present ← data.pyContains "standings"
  if present then
    let s ← data.getKey "standings"
    let n ← s.pyLen
    if 0 < n then
      let g ← s.pyFirst
      let tbl ← g.getKey "table"
      let items ← tbl.pyIter
      mapStandings now items
    else
      Except.ok []
  else
    Except.ok []

/-- `FootballDataPipeline.get_premier_league_standings` (lines 25–56).
Returns the row list together with the list of printed lines.  The
`except requests.exceptions.RequestException` clause catches the transport
error, the `HTTPError` from `raise_for_status()` and the
`JSONDecodeError` from `response.json()`, printing one error line and
returning `[]`; any other exception (the `KeyError`/`TypeError` shape
errors raised while building rows) escapes the function as `Except.error`. -/
def get_premier_league_standings (now : Nat) (o : HttpOutcome) :
    Except String (List StandingRow × List String) :=
  match o with
  | HttpOutcome.netError msg =>
    Except.ok ([], ["Error fetching standings: " ++ msg])
  | HttpOutcome.response code body =>
    if httpErrorStatus code then
      Except.ok ([], ["Error fetching standings: HTTP " ++ toString code])
    else
      match body with
      | none => Except.ok ([], ["Error fetching standings: invalid JSON body"])
      | some data =>
        match standingsOfData now data with
        | Except.ok rows => Except.ok (rows, [])
        | Except.error e => Except.error e

/-- Lines 74–89: build the match row list from a parsed response body. -/
def matchesOfData (now : Nat) (data : Json) : Except String (List MatchRow) := do
  let ms ← data.pyGetD "matches" (Json.arr [])
  let items ← ms.pyIter
  mapMatches now items

/-- `FootballDataPipeline.get_recent_matches` (lines 58–93).  The
`dateFrom`/`dateTo` query parameters only shape the request, which is
abstracted into the `HttpOutcome`; error handling is exactly as in
`get_premier_league_standings`. -/
def get_recent_matches (now : Nat) (o : HttpOutcome) :
    Except String (List MatchRow × List String) :=
  match o with
  | HttpOutcome.netError msg =>
    Except.ok ([], ["Error fetching matches: " ++ msg])
  | HttpOutcome.response code body =>
    if httpErrorStatus code then
      Except.ok ([], ["Error fetching matches: HTTP " ++ toString code])
    else
      match body with
      | none => Except.ok ([], ["Error fetching matches: invalid JSON body"])
      | some data =>
        match matchesOfData now data with
        | Except.ok rows => Except.ok (rows, [])
        | Except.error e => Except.error e

/-- The two Supabase tables this program writes.  (`matches` is a reserved
word in Lean, so the matches table field is named `matchesTable`.) -/
structure DB where
  standings : List StandingRow
  matchesTable : List MatchRow
  deriving Repr, DecidableEq

/-- Write oracle for the standings sync: the remote database may raise an
`Exception` from the delete call or from the insert call. -/
inductive StandingsWrite where
  | ok
  | failDelete (msg : String)
  | failInsert (msg : String)
  deriving Repr, DecidableEq

/-- Write oracle for the matches sync: the remote database may raise an
`Exception` from the `(k+1)`-th upsert call (the first `k` having
succeeded). -/
inductive MatchesWrite where
  | ok
  | failAt (k : Nat) (msg : String)
  deriving Repr, DecidableEq

/-- `supabase.table('standings').delete().gte('updated_at', <today>)`:
removes every row whose `updated_at` timestamp is at or after midnight of
the current calendar date (ISO timestamp strings compare exactly like the
instants they denote, so `gte` against today's date string keeps precisely
the rows stamped strictly before today's midnight). -/
def deleteStandingsGteToday (now : Nat) (tbl : List StandingRow) : List StandingRow :=
  tbl.filter (fun r => !(startOfDay now ≤ r.updated_at))

/-- One `supabase.table('matches').upsert(match, on_conflict='match_id')`:
overwrite every row carrying the key if present, append otherwise. -/
def upsertMatch (tbl : List MatchRow) (r : MatchRow) : List MatchRow :=
  if tbl.any (fun x => x.match_id == r.match_id) then
    tbl.map (fun x => if x.match_id == r.match_id then r else x)
  else
    tbl ++ [r]

/-- The `for match in matches:` upsert loop over a whole payload. -/
def upsertAll (tbl : List MatchRow) (rows : List MatchRow) : List MatchRow :=
  rows.foldl upsertMatch tbl

/-- `FootballDataPipeline.sync_standings_to_supabase` (lines 95–114).
An exception escaping the fetch propagates (the fetch call is outside the
`try`); an empty fetch result returns before any database call; otherwise
delete-then-insert runs under `except Exception`, so a raised write error is
converted to a printed line — a delete failure leaves the table unchanged,
an insert failure leaves it deleted-but-not-inserted. -/
def sync_standings_to_supabase (now : Nat) (o : HttpOutcome) (w : StandingsWrite)
    (db : DB) : Except String (DB × List String) :=
  match get_premier_league_standings now o with
  | Except.error e => Except.error e
  | Except.ok (standings, logs) =>
    if standings.isEmpty then
      Except.ok (db, logs ++ ["No standings data to sync"])
    else
      match w with
      | StandingsWrite.failDelete msg =>
        Except.ok (db, logs ++ ["Error syncing standings: " ++ msg])
      | StandingsWrite.failInsert msg =>
        Except.ok ({ db with standings := deleteStandingsGteToday now db.standings },
          logs ++ ["Error syncing standings: " ++ msg])
      | StandingsWrite.ok =>
        Except.ok ({ db with standings := deleteStandingsGteToday now db.standings ++ standings },
          logs ++ ["Synced " ++ toString standings.length ++ " teams to standings table"])

/-- `FootballDataPipeline.sync_matches_to_supabase` (lines 116–135).
Same boundary structure as the standings sync; the upserts run one row at a
time, so a write error raised partway leaves the first `k` rows applied. -/
def sync_matches_to_supabase (now : Nat) (o : HttpOutcome) (w : MatchesWrite)
    (db : DB) : Except String (DB × List String) :=
  match get_recent_matches now o with
  | Except.error e => Except.error e
  | Except.ok (matchRows, logs) =>
    if matchRows.isEmpty then
      Except.ok (db, logs ++ ["No match data to sync"])
    else
      match w with
      | MatchesWrite.failAt k msg =>
        Except.ok ({ db with matchesTable := upsertAll db.matchesTable (matchRows.take k) },
          logs ++ ["Error syncing matches: " ++ msg])
      | MatchesWrite.ok =>
        Except.ok ({ db with matchesTable := upsertAll db.matchesTable matchRows },
          logs ++ ["Synced " ++ toString matchRows.length ++ " matches to matches table"])

/-- `FootballDataPipeline.run_daily_sync` (lines 137–148): the standings sync
then the matches sync, between banner prints.  Nothing here catches
exceptions, so an `Except.error` escaping either sync aborts the run. -/
def run_daily_sync (now : Nat) (oS oM : HttpOutcome) (wS : StandingsWrite)
    (wM : MatchesWrite) (db : DB) : Except String (DB × List String) :=
  match sync_standings_to_supabase now oS wS db with
  | Except.error e => Except.error e
  | Except.ok (db1, logs1) =>
    match sync_matches_to_supabase now oM wM db1 with
    | Except.error e => Except.error e
    | Except.ok (db2, logs2) =>
      Except.ok (db2,
        ["Starting daily sync at " ++ toString now] ++ logs1 ++ logs2 ++
          ["Sync completed at " ++ toString now])

/-- Modelled from the spec: the `schedule` library used by the entry point
(lines 200–212) is an external dependency, not part of this repository.  Per
the spec, the loop "polls its trigger condition on a fixed interval (once
per minute)": each iteration runs the daily job if wall-clock time has
reached the pending trigger instant, then sleeps 60 seconds.
`schedulerFirstRun fuel now trigger` is the instant at which the loop first
starts the daily sync, observed for at most `fuel` loop iterations, with the
loop idle (each iteration takes exactly the 60-second sleep). -/
def schedulerFirstRun : Nat → Nat → Nat → Option Nat
  | 0, _, _ => none
  | fuel + 1, now, trigger =>
    if trigger ≤ now then some now
    else schedulerFirstRun fuel (now + 60) trigger

/-! ### Concrete documents and rows used as test inputs -/

/-- A well-formed entry of the standings table array, as documented by the
upstream API. -/
def teamEntry1 : Json :=
  Json.obj [("position", Json.num 1),
    ("team", Json.obj [("name", Json.str "Arsenal FC"), ("id", Json.num 57)]),
    ("playedGames", Json.num 7), ("won", Json.num 6), ("draw", Json.num 1),
    ("lost", Json.num 0), ("points", Json.num 19), ("goalsFor", Json.num 15),
    ("goalsAgainst", Json.num 3), ("goalDifference", Json.num 12)]

/-- A well-formed standings response body with one table entry. -/
def standingsDoc1 : Json :=
  Json.obj [("filters", Json.null),
    ("standings", Json.arr [Json.obj [("stage", Json.str "REGULAR_SEASON"),
      ("table", Json.arr [teamEntry1])]])]

/-- The row `standingsDoc1` maps to when stamped at instant 86400. -/
def standingRow1 : StandingRow :=
  { position := Json.num 1, team_name := Json.str "Arsenal FC",
    team_id := Json.num 57, played_games := Json.num 7, won := Json.num 6,
    draw := Json.num 1, lost := Json.num 0, points := Json.num 19,
    goals_for := Json.num 15, goals_against := Json.num 3,
    goal_difference := Json.num 12, updated_at := 86400 }

/-- A standings entry whose expected fields are all absent: mapping it
raises `KeyError: position`. -/
def badStandingsDoc : Json :=
  Json.obj [("standings", Json.arr [Json.obj [("table",
    Json.arr [Json.obj [("rank", Json.num 1)]])]])]

/-- A well-formed finished match with full-time score 2–1. -/
def matchEntry1 : Json :=
  Json.obj [("id", Json.num 12345), ("utcDate", Json.str "2026-10-11T15:00:00Z"),
    ("status", Json.str "FINISHED"), ("matchday", Json.num 7),
    ("homeTeam", Json.obj [("name", Json.str "Arsenal FC"), ("id", Json.num 57)]),
    ("awayTeam", Json.obj [("name", Json.str "Chelsea FC"), ("id", Json.num 61)]),
    ("score", Json.obj [("fullTime", Json.obj [("home", Json.num 2), ("away", Json.num 1)])])]

/-- A matches response body containing only `matchEntry1`. -/
def matchesDoc1 : Json := Json.obj [("matches", Json.arr [matchEntry1])]

/-- The row `matchEntry1` maps to when stamped at instant 0. -/
def matchRow1 : MatchRow :=
  { match_id := Json.num 12345, match_date := Json.str "2026-10-11T15:00:00Z",
    status := Json.str "FINISHED", matchday := Json.num 7,
    home_team := Json.str "Arsenal FC", home_team_id := Json.num 57,
    away_team := Json.str "Chelsea FC", away_team_id := Json.num 61,
    home_score := Json.num 2, away_score := Json.num 1, updated_at := 0 }

/-- A scheduled match with no full-time score posted yet: the `fullTime`
object carries no `home`/`away` fields. -/
def matchEntryNoScore : Json :=
  Json.obj [("id", Json.num 12345), ("utcDate", Json.str "2026-10-11T15:00:00Z"),
    ("status", Json.str "SCHEDULED"), ("matchday", Json.num 7),
    ("homeTeam", Json.obj [("name", Json.str "Arsenal FC"), ("id", Json.num 57)]),
    ("awayTeam", Json.obj [("name", Json.str "Chelsea FC"), ("id", Json.num 61)]),
    ("score", Json.obj [("fullTime", Json.obj [])])]

/-- A matches response body containing only `matchEntryNoScore`. -/
def matchesDocNoScore : Json := Json.obj [("matches", Json.arr [matchEntryNoScore])]

/-- A standings row stamped on calendar day 0, used as pre-existing
database content. -/
def sampleOldRow : StandingRow :=
  { position := Json.num 1, team_name := Json.str "Old FC", team_id := Json.num 1,
    played_games := Json.num 0, won := Json.num 0, draw := Json.num 0,
    lost := Json.num 0, points := Json.num 0, goals_for := Json.num 0,
    goals_against := Json.num 0, goal_difference := Json.num 12,
    updated_at := 10 }

/-! ### General lemmas about the embedding -/

theorem except_bind_ok {ε α β : Type} {x : Except ε α} {f : α → Except ε β} {b : β} :
    x >>= f = Except.ok b ↔ ∃ a, x = Except.ok a ∧ f a = Except.ok b := by
  cases x <;> simp [Bind.bind, Except.bind]

/-- Unpack a successful standings mapping loop into its per-entry calls. -/
theorem mapStandings_forall2 (now : Nat) :
    ∀ (ts : List Json) (rows : List StandingRow),
      mapStandings now ts = Except.ok rows →
      List.Forall₂ (fun t r => mapStandingEntry now t = Except.ok r) ts rows
  | [], rows, h => by
    simp only [mapStandings, Except.ok.injEq] at h
    exact h ▸ List.Forall₂.nil
  | t :: ts, rows, h => by
    simp only [mapStandings] at h
    obtain ⟨r, hr, h⟩ := except_bind_ok.mp h
    obtain ⟨rs, hrs, h⟩ := except_bind_ok.mp h
    cases h
    exact List.Forall₂.cons hr (mapStandings_forall2 now ts rs hrs)

/-- Unpack a successful matches mapping loop into its per-entry calls. -/
theorem mapMatches_forall2 (now : Nat) :
    ∀ (ms : List Json) (rows : List MatchRow),
      mapMatches now ms = Except.ok rows →
      List.Forall₂ (fun m r => mapMatch now m = Except.ok r) ms rows
  | [], rows, h => by
    simp only [mapMatches, Except.ok.injEq] at h
    exact h ▸ List.Forall₂.nil
  | m :: ms, rows, h => by
    simp only [mapMatches] at h
    obtain ⟨r, hr, h⟩ := except_bind_ok.mp h
    obtain ⟨rs, hrs, h⟩ := except_bind_ok.mp h
    cases h
    exact List.Forall₂.cons hr (mapMatches_forall2 now ms rs hrs)

/-- A successfully mapped standings row copies the entry's `position`
value unchanged. -/
theorem mapStandingEntry_position (now : Nat) (t : Json) (r : StandingRow)
    (h : mapStandingEntry now t = Except.ok r) :
    t.getKey "position" = Except.ok r.position := by
  simp only [mapStandingEntry] at h
  obtain ⟨pos, hpos, h⟩ := except_bind_ok.mp h
  obtain ⟨tm, htm, h⟩ := except_bind_ok.mp h
  obtain ⟨name, hname, h⟩ := except_bind_ok.mp h
  obtain ⟨tid, htid, h⟩ := except_bind_ok.mp h
  obtain ⟨pg, hpg, h⟩ := except_bind_ok.mp h
  obtain ⟨w, hw, h⟩ := except_bind_ok.mp h
  obtain ⟨d, hd, h⟩ := except_bind_ok.mp h
  obtain ⟨l, hl, h⟩ := except_bind_ok.mp h
  obtain ⟨pts, hpts, h⟩ := except_bind_ok.mp h
  obtain ⟨gf, hgf, h⟩ := except_bind_ok.mp h
  obtain ⟨ga, hga, h⟩ := except_bind_ok.mp h
  obtain ⟨gd, hgd, h⟩ := except_bind_ok.mp h
  cases h
  exact hpos

/-- A successfully mapped match row copies the match's `id` value
unchanged into `match_id`. -/
theorem mapMatch_match_id (now : Nat) (m : Json) (r : MatchRow)
    (h : mapMatch now m = Except.ok r) :
    m.getKey "id" = Except.ok r.match_id := by
  simp only [mapMatch] at h
  obtain ⟨mid, hmid, h⟩ := except_bind_ok.mp h
  obtain ⟨mdate, hmdate, h⟩ := except_bind_ok.mp h
  obtain ⟨mstat, hmstat, h⟩ := except_bind_ok.mp h
  obtain ⟨mday, hmday, h⟩ := except_bind_ok.mp h
  obtain ⟨ht, hht, h⟩ := except_bind_ok.mp h
  obtain ⟨htName, hhtName, h⟩ := except_bind_ok.mp h
  obtain ⟨htId, hhtId, h⟩ := except_bind_ok.mp h
  obtain ⟨aw, haw, h⟩ := except_bind_ok.mp h
  obtain ⟨awName, hawName, h⟩ := except_bind_ok.mp h
  obtain ⟨awId, hawId, h⟩ := except_bind_ok.mp h
  obtain ⟨sc, hsc, h⟩ := except_bind_ok.mp h
  obtain ⟨ft, hft, h⟩ := except_bind_ok.mp h
  obtain ⟨hs, hhs, h⟩ := except_bind_ok.mp h
  obtain ⟨asc, hasc, h⟩ := except_bind_ok.mp h
  cases h
  exact hmid

/-! ### C3: empty standings fetch is a no-op -/

/-- C3: whenever the standings fetch returns an empty row list, the
standings sync performs no database call at all — the delete step never
runs, the database state is returned unchanged, and the operation reports
"No standings data to sync". -/
theorem sync_standings_empty_fetch_noop (now : Nat) (o : HttpOutcome)
    (w : StandingsWrite) (db : DB) (logs : List String)
    (h : get_premier_league_standings now o = Except.ok ([], logs)) :
    sync_standings_to_supabase now o w db =
      Except.ok (db, logs ++ ["No standings data to sync"]) := by
  simp [sync_standings_to_supabase, h]

/-- Witness for C3 at a concrete input: a failed fetch yields the empty
list, and the sync leaves a populated standings table untouched. -/
theorem sync_standings_empty_fetch_noop_witness :
    sync_standings_to_supabase 0 (HttpOutcome.netError "boom") StandingsWrite.ok
        (DB.mk [sampleOldRow] []) =
      Except.ok (DB.mk [sampleOldRow] [],
        ["Error fetching standings: boom", "No standings data to sync"]) :=
  sync_standings_empty_fetch_noop 0 (HttpOutcome.netError "boom")
    StandingsWrite.ok (DB.mk [sampleOldRow] [])
    ["Error fetching standings: boom"] rfl

/-! ### C8: fetch failure handling -/

/-- The failure conditions handled by the fetch functions' `except` clause:
a raised transport error, an HTTP error status (4xx/5xx, the statuses for
which `raise_for_status` raises), or a body that is not JSON. -/
def fetchFails : HttpOutcome → Prop
  | HttpOutcome.netError _ => True
  | HttpOutcome.response code body => httpErrorStatus code = true ∨ body = none

/-- C8 (amended): on a transport error, a 4xx/5xx status, or a non-JSON
body, each fetch function prints exactly one error line and returns the
empty result list to its caller; the single `HttpOutcome` argument embeds
the one request issued per invocation (no retry, no backoff). -/
theorem fetch_failure_logged_empty_no_retry (now : Nat) (o : HttpOutcome)
    (h : fetchFails o) :
    (∃ msg, get_premier_league_standings now o = Except.ok ([], [msg])) ∧
    (∃ msg, get_recent_matches now o = Except.ok ([], [msg])) := by
  cases o with
  | netError m =>
    exact ⟨⟨"Error fetching standings: " ++ m, rfl⟩,
           ⟨"Error fetching matches: " ++ m, rfl⟩⟩
  | response code body =>
    simp only [fetchFails] at h
    rcases h with hc | hb
    · exact ⟨⟨"Error fetching standings: HTTP " ++ toString code,
              by simp [get_premier_league_standings, hc]⟩,
             ⟨"Error fetching matches: HTTP " ++ toString code,
              by simp [get_recent_matches, hc]⟩⟩
    · subst hb
      cases hc : httpErrorStatus code with
      | true =>
        exact ⟨⟨"Error fetching standings: HTTP " ++ toString code,
                by simp [get_premier_league_standings, hc]⟩,
               ⟨"Error fetching matches: HTTP " ++ toString code,
                by simp [get_recent_matches, hc]⟩⟩
      | false =>
        exact ⟨⟨"Error fetching standings: invalid JSON body",
                by simp [get_premier_league_standings, hc]⟩,
               ⟨"Error fetching matches: invalid JSON body",
                by simp [get_recent_matches, hc]⟩⟩

/-- Witness for C8 at a concrete input: a raised transport error. -/
theorem fetch_failure_logged_empty_no_retry_witness :
    (∃ msg, get_premier_league_standings 0 (HttpOutcome.netError "refused") =
      Except.ok ([], [msg])) ∧
    (∃ msg, get_recent_matches 0 (HttpOutcome.netError "refused") =
      Except.ok ([], [msg])) :=
  fetch_failure_logged_empty_no_retry 0 (HttpOutcome.netError "refused")
    (by simp [fetchFails])

/-- C8 counterexample to "non-2xx": a delivered 300 response is not a 2xx
status, yet `raise_for_status` raises only for 400–599, so the client maps
its JSON body as a success — it returns a non-empty result and logs no
error line. -/
theorem non2xx_json_body_treated_as_success :
    ¬ (200 ≤ 300 ∧ 300 < 300) ∧
    get_premier_league_standings 86400 (HttpOutcome.response 300 (some standingsDoc1)) =
      Except.ok ([standingRow1], []) :=
  ⟨by decide, rfl⟩

/-! ### C10: a parsed body without usable standings is indistinguishable
from a failed fetch -/

/-- A successful dict lookup implies the `in` test succeeds. -/
theorem pyContains_true_of_getKey_ok (data : Json) (k : String) (v : Json)
    (h : Json.getKey data k = Except.ok v) :
    Json.pyContains data k = Except.ok true := by
  cases data with
  | obj fields =>
    simp only [Json.getKey] at h
    cases hf : fields.find? (fun p => p.1 == k) with
    | none => rw [hf] at h; exact absurd h (by simp)
    | some p =>
      have hmem := List.mem_of_find?_eq_some hf
      have hpred := List.find?_some hf
      simp only [Json.pyContains, Except.ok.injEq]
      exact List.any_eq_true.mpr ⟨p, hmem, hpred⟩
  | null => exact absurd h (by simp [Json.getKey])
  | num n => exact absurd h (by simp [Json.getKey])
  | str s => exact absurd h (by simp [Json.getKey])
  | arr xs => exact absurd h (by simp [Json.getKey])

/-- C10: a response body that parses as JSON but has no `standings` key, or
whose `standings` array is empty, makes the fetch return `[]` without
raising and without logging; at the sync call site this is exactly the same
"No standings data to sync" no-op as a failed fetch (here: a transport
error), leaving the database unchanged either way. -/
theorem standings_missing_or_empty_like_failure (now : Nat) (data : Json)
    (w : StandingsWrite) (db : DB) (e : String)
    (h : Json.pyContains data "standings" = Except.ok false ∨
         Json.getKey data "standings" = Except.ok (Json.arr [])) :
    get_premier_league_standings now (HttpOutcome.response 200 (some data)) =
      Except.ok ([], []) ∧
    sync_standings_to_supabase now (HttpOutcome.response 200 (some data)) w db =
      Except.ok (db, ["No standings data to sync"]) ∧
    sync_standings_to_supabase now (HttpOutcome.netError e) w db =
      Except.ok (db, ["Error fetching standings: " ++ e,
        "No standings data to sync"]) := by
  have hfetch : get_premier_league_standings now
      (HttpOutcome.response 200 (some data)) = Except.ok ([], []) := by
    rcases h with h | h
    · simp [get_premier_league_standings, httpErrorStatus, standingsOfData, h,
        Bind.bind, Except.bind]
    · have hc := pyContains_true_of_getKey_ok data "standings" _ h
      simp [get_premier_league_standings, httpErrorStatus, standingsOfData, h,
        hc, Json.pyLen, Bind.bind, Except.bind]
  refine ⟨hfetch, by simp [sync_standings_to_supabase, hfetch], ?_⟩
  simp [sync_standings_to_supabase, get_premier_league_standings]

/-- Witness for C10 at a concrete input: a body with no `standings` key and
a populated standings table that stays untouched. -/
theorem standings_missing_or_empty_like_failure_witness :
    get_premier_league_standings 5
        (HttpOutcome.response 200 (some (Json.obj [("filters", Json.null)]))) =
      Except.ok ([], []) ∧
    sync_standings_to_supabase 5
        (HttpOutcome.response 200 (some (Json.obj [("filters", Json.null)])))
        StandingsWrite.ok (DB.mk [sampleOldRow] []) =
      Except.ok (DB.mk [sampleOldRow] [], ["No standings data to sync"]) ∧
    sync_standings_to_supabase 5 (HttpOutcome.netError "timeout")
        StandingsWrite.ok (DB.mk [sampleOldRow] []) =
      Except.ok (DB.mk [sampleOldRow] [],
        ["Error fetching standings: timeout", "No standings data to sync"]) :=
  standings_missing_or_empty_like_failure 5 (Json.obj [("filters", Json.null)])
    StandingsWrite.ok (DB.mk [sampleOldRow] []) "timeout" (Or.inl rfl)

/-! ### C2: a match without posted score fields -/

/-- C2 (code behavior): on a matches response whose single match has no
full-time score fields, the mapper raises `KeyError: home`, and — because
the fetch function's `except` clause catches only `RequestException` — the
error escapes `get_recent_matches` uncaught instead of producing a row with
null scores. -/
theorem get_recent_matches_missing_score_raises :
    get_recent_matches 0 (HttpOutcome.response 200 (some matchesDocNoScore)) =
      Except.error "KeyError: home" := rfl

/-! ### C1: which errors the daily sync absorbs -/

/-- The standings sync completes (no exception escapes) exactly when its
fetch completes: every raised database write error is caught, and a fetch
that completes — including every handled fetch failure — never aborts the
operation. -/
theorem sync_standings_ok_iff (now : Nat) (o : HttpOutcome) (w : StandingsWrite)
    (db : DB) :
    (∃ r, sync_standings_to_supabase now o w db = Except.ok r) ↔
    (∃ s, get_premier_league_standings now o = Except.ok s) := by
  cases hf : get_premier_league_standings now o with
  | error e => simp [sync_standings_to_supabase, hf]
  | ok s =>
    obtain ⟨rows, logs⟩ := s
    simp only [sync_standings_to_supabase, hf]
    refine ⟨fun _ => ⟨(rows, logs), rfl⟩, fun _ => ?_⟩
    cases rows with
    | nil => exact ⟨(db, logs ++ ["No standings data to sync"]), by simp⟩
    | cons a as =>
      cases w with
      | ok =>
        refine ⟨(DB.mk (deleteStandingsGteToday now db.standings ++ (a :: as))
          db.matchesTable, logs ++ ["Synced " ++ toString (a :: as).length ++
            " teams to standings table"]), by simp⟩
      | failDelete msg =>
        exact ⟨(db, logs ++ ["Error syncing standings: " ++ msg]), by simp⟩
      | failInsert msg =>
        refine ⟨(DB.mk (deleteStandingsGteToday now db.standings) db.matchesTable,
          logs ++ ["Error syncing standings: " ++ msg]), by simp⟩

/-- Companion to `sync_standings_ok_iff` for the matches sync. -/
theorem sync_matches_ok_iff (now : Nat) (o : HttpOutcome) (w : MatchesWrite)
    (db : DB) :
    (∃ r, sync_matches_to_supabase now o w db = Except.ok r) ↔
    (∃ m, get_recent_matches now o = Except.ok m) := by
  cases hf : get_recent_matches now o with
  | error e => simp [sync_matches_to_supabase, hf]
  | ok s =>
    obtain ⟨rows, logs⟩ := s
    simp only [sync_matches_to_supabase, hf]
    refine ⟨fun _ => ⟨(rows, logs), rfl⟩, fun _ => ?_⟩
    cases rows with
    | nil => exact ⟨(db, logs ++ ["No match data to sync"]), by simp⟩
    | cons a as =>
      cases w with
      | ok =>
        refine ⟨(DB.mk db.standings (upsertAll db.matchesTable (a :: as)),
          logs ++ ["Synced " ++ toString (a :: as).length ++
            " matches to matches table"]), by simp⟩
      | failAt k msg =>
        refine ⟨(DB.mk db.standings (upsertAll db.matchesTable ((a :: as).take k)),
          logs ++ ["Error syncing matches: " ++ msg]), by simp⟩

/-- C1 (amended): a daily sync run completes — no error aborts the
scheduler loop — exactly when neither fetch raises a response-shape error
while building rows.  In particular every transport error, HTTP error
status, non-JSON body and raised database write error, for either
operation and any write oracle, is caught at its operation boundary and
converted to a logged line; only a malformed/unexpected response shape
during mapping escapes, aborting the run and preventing the sibling
operation. -/
theorem run_daily_sync_ok_iff (now : Nat) (oS oM : HttpOutcome)
    (wS : StandingsWrite) (wM : MatchesWrite) (db : DB) :
    (∃ r, run_daily_sync now oS oM wS wM db = Except.ok r) ↔
    ((∃ s, get_premier_league_standings now oS = Except.ok s) ∧
     (∃ m, get_recent_matches now oM = Except.ok m)) := by
  constructor
  · rintro ⟨r, hr⟩
    cases h1 : sync_standings_to_supabase now oS wS db with
    | error e => simp [run_daily_sync, h1] at hr
    | ok p1 =>
      obtain ⟨db1, l1⟩ := p1
      simp only [run_daily_sync, h1] at hr
      cases h2 : sync_matches_to_supabase now oM wM db1 with
      | error e => simp [h2] at hr
      | ok p2 =>
        exact ⟨(sync_standings_ok_iff now oS wS db).mp ⟨_, h1⟩,
               (sync_matches_ok_iff now oM wM db1).mp ⟨_, h2⟩⟩
  · rintro ⟨hs, hm⟩
    obtain ⟨⟨db1, l1⟩, h1⟩ := (sync_standings_ok_iff now oS wS db).mpr hs
    obtain ⟨⟨db2, l2⟩, h2⟩ := (sync_matches_ok_iff now oM wM db1).mpr hm
    exact ⟨(db2, ["Starting daily sync at " ++ toString now] ++ l1 ++ l2 ++
      ["Sync completed at " ++ toString now]), by simp [run_daily_sync, h1, h2]⟩

/-- C1 counterexample to the claim as stated: with a response whose
standings entry lacks the expected fields, the mapping error is not
converted to a logged message — the whole daily sync aborts with an
uncaught `KeyError`, and the matches sync (whose own input is well-formed)
never runs. -/
theorem run_daily_sync_shape_error_aborts :
    run_daily_sync 0 (HttpOutcome.response 200 (some badStandingsDoc))
        (HttpOutcome.response 200 (some matchesDoc1)) StandingsWrite.ok
        MatchesWrite.ok (DB.mk [] []) =
      Except.error "KeyError: position" := rfl

/-! ### C5: the standings mapper preserves count and order -/

/-- C5: on a valid standings response (delivered with a non-error status,
a parsed body whose first standings group has a table array, and every
entry mapping successfully), the fetch produces exactly one row per table
entry, and the `i`-th row's `position` is the `position` value of the
`i`-th entry — output order matches input order. -/
theorem standings_mapper_length_and_order (now code : Nat) (data g : Json)
    (groups entries : List Json) (rows : List StandingRow) (logs : List String)
    (hcode : httpErrorStatus code = false)
    (hs : Json.getKey data "standings" = Except.ok (Json.arr (g :: groups)))
    (ht : Json.getKey g "table" = Except.ok (Json.arr entries))
    (hfetch : get_premier_league_standings now
        (HttpOutcome.response code (some data)) = Except.ok (rows, logs)) :
    rows.length = entries.length ∧
    ∀ i (hi : i < entries.length) (hi2 : i < rows.length),
      Json.getKey (entries.get ⟨i, hi⟩) "position" =
        Except.ok ((rows.get ⟨i, hi2⟩).position) := by
  have hc := pyContains_true_of_getKey_ok data "standings" _ hs
  simp only [get_premier_league_standings, hcode, Bool.false_eq_true, if_false,
    standingsOfData, Bind.bind, Except.bind, hc, hs, Json.pyLen, Json.pyFirst,
    Json.pyIter, List.length_cons, if_true, Nat.zero_lt_succ, if_pos, ht] at hfetch
  cases hm : mapStandings now entries with
  | error e => rw [hm] at hfetch; exact absurd hfetch (by simp)
  | ok rows2 =>
    rw [hm] at hfetch
    simp only [Except.ok.injEq, Prod.mk.injEq] at hfetch
    obtain ⟨hrows, -⟩ := hfetch
    subst hrows
    have hf2 := List.forall₂_iff_get.mp (mapStandings_forall2 now entries rows2 hm)
    exact ⟨hf2.1.symm, fun i hi hi2 =>
      mapStandingEntry_position now _ _ (hf2.2 i hi hi2)⟩

/-- Witness for C5 at a concrete one-entry response. -/
theorem standings_mapper_length_and_order_witness :
    ([standingRow1].length = [teamEntry1].length ∧
      ∀ i (hi : i < [teamEntry1].length) (hi2 : i < [standingRow1].length),
        Json.getKey ([teamEntry1].get ⟨i, hi⟩) "position" =
          Except.ok (([standingRow1].get ⟨i, hi2⟩).position)) :=
  standings_mapper_length_and_order 86400 200 standingsDoc1
    (Json.obj [("stage", Json.str "REGULAR_SEASON"),
      ("table", Json.arr [teamEntry1])])
    [] [teamEntry1] [standingRow1] [] rfl rfl rfl rfl

/-! ### C6: the matches mapper preserves the key field -/

/-- C6: on a valid matches response (non-error status, parsed body whose
`matches` member is an array, every match mapping successfully), the fetch
produces exactly one row per input match, and the `i`-th row's `match_id`
is the `id` value of the `i`-th input match, unchanged. -/
theorem matches_mapper_preserves_match_id (now code : Nat) (data : Json)
    (entries : List Json) (rows : List MatchRow) (logs : List String)
    (hcode : httpErrorStatus code = false)
    (hm : Json.pyGetD data "matches" (Json.arr []) = Except.ok (Json.arr entries))
    (hfetch : get_recent_matches now (HttpOutcome.response code (some data)) =
      Except.ok (rows, logs)) :
    rows.length = entries.length ∧
    ∀ i (hi : i < entries.length) (hi2 : i < rows.length),
      Json.getKey (entries.get ⟨i, hi⟩) "id" =
        Except.ok ((rows.get ⟨i, hi2⟩).match_id) := by
  simp only [get_recent_matches, hcode, Bool.false_eq_true, if_false,
    matchesOfData, Bind.bind, Except.bind, hm, Json.pyIter] at hfetch
  cases hmm : mapMatches now entries with
  | error e => rw [hmm] at hfetch; exact absurd hfetch (by simp)
  | ok rows2 =>
    rw [hmm] at hfetch
    simp only [Except.ok.injEq, Prod.mk.injEq] at hfetch
    obtain ⟨hrows, -⟩ := hfetch
    subst hrows
    have hf2 := List.forall₂_iff_get.mp (mapMatches_forall2 now entries rows2 hmm)
    exact ⟨hf2.1.symm, fun i hi hi2 =>
      mapMatch_match_id now _ _ (hf2.2 i hi hi2)⟩

/-- Witness for C6 at a concrete one-match response. -/
theorem matches_mapper_preserves_match_id_witness :
    ([matchRow1].length = [matchEntry1].length ∧
      ∀ i (hi : i < [matchEntry1].length) (hi2 : i < [matchRow1].length),
        Json.getKey ([matchEntry1].get ⟨i, hi⟩) "id" =
          Except.ok (([matchRow1].get ⟨i, hi2⟩).match_id)) :=
  matches_mapper_preserves_match_id 0 200 matchesDoc1 [matchEntry1]
    [matchRow1] [] rfl rfl rfl

/-! ### C7: what the standings delete step removes -/

/-- The `gte` delete keeps exactly the rows stamped strictly before
midnight of the current calendar date. -/
theorem deleteStandingsGteToday_eq_filter_lt (now : Nat) (tbl : List StandingRow) :
    deleteStandingsGteToday now tbl =
      tbl.filter (fun r => r.updated_at < startOfDay now) := by
  unfold deleteStandingsGteToday
  apply List.filter_congr
  intro x _
  by_cases hx : startOfDay now ≤ x.updated_at
  · simp [hx, Nat.not_lt.mpr hx]
  · simp [hx, Nat.lt_of_not_le hx]

/-- C7 (amended): on a non-empty successful fetch, the standings sync runs
fetch → map → delete → insert: the rows it keeps are exactly those whose
`updated_at` is strictly before midnight of the current calendar date — so
the delete removes every row stamped today **or later**, not only rows of
the current date — and the freshly mapped rows are appended after them. -/
theorem sync_standings_nonempty_delete_then_insert (now : Nat) (o : HttpOutcome)
    (db : DB) (rows : List StandingRow) (logs : List String)
    (hfetch : get_premier_league_standings now o = Except.ok (rows, logs))
    (hne : rows ≠ []) :
    sync_standings_to_supabase now o StandingsWrite.ok db =
      Except.ok (DB.mk (db.standings.filter
            (fun r => r.updated_at < startOfDay now) ++ rows) db.matchesTable,
        logs ++ ["Synced " ++ toString rows.length ++
          " teams to standings table"]) := by
  simp only [sync_standings_to_supabase, hfetch]
  cases rows with
  | nil => exact absurd rfl hne
  | cons a as => simp [deleteStandingsGteToday_eq_filter_lt]

/-- Witness for C7 at a concrete input: a yesterday-stamped row survives
the delete and the fetched row is inserted after it. -/
theorem sync_standings_nonempty_delete_then_insert_witness :
    sync_standings_to_supabase 86400 (HttpOutcome.response 200 (some standingsDoc1))
        StandingsWrite.ok (DB.mk [sampleOldRow] []) =
      Except.ok (DB.mk [sampleOldRow, standingRow1] [],
        ["Synced 1 teams to standings table"]) :=
  sync_standings_nonempty_delete_then_insert 86400
    (HttpOutcome.response 200 (some standingsDoc1)) (DB.mk [sampleOldRow] [])
    [standingRow1] [] rfl (List.cons_ne_nil _ _)

/-- A standings row stamped on calendar day 2 (a date later than the
counterexample's "today", day 1). -/
def futureStandingRow : StandingRow :=
  { position := Json.num 3, team_name := Json.str "Future FC",
    team_id := Json.num 3, played_games := Json.num 0, won := Json.num 0,
    draw := Json.num 0, lost := Json.num 0, points := Json.num 0,
    goals_for := Json.num 0, goals_against := Json.num 0,
    goal_difference := Json.num 0, updated_at := 172900 }

/-- C7 counterexample to "removes exactly the rows of the current calendar
date": the delete filter is `updated_at >= <today's date>`, so a run on day
1 also removes a row stamped on day 2 — a row whose date is not the current
calendar date. -/
theorem sync_standings_deletes_future_dated_row :
    ∃ p, sync_standings_to_supabase 86400
        (HttpOutcome.response 200 (some standingsDoc1)) StandingsWrite.ok
        (DB.mk [futureStandingRow] []) = Except.ok p ∧
      futureStandingRow ∉ p.1.standings ∧
      dayOf futureStandingRow.updated_at ≠ dayOf 86400 :=
  ⟨(DB.mk [standingRow1] [], ["Synced 1 teams to standings table"]),
    rfl, by decide, by decide⟩

/-! ### C4: upsert semantics of the matches sync -/

/-- The key column of the matches table. -/
def matchKeys (tbl : List MatchRow) : List Json := tbl.map MatchRow.match_id

theorem any_key_iff (tbl : List MatchRow) (k : Json) :
    tbl.any (fun x => x.match_id == k) = true ↔ k ∈ matchKeys tbl := by
  simp only [matchKeys, List.any_eq_true, List.mem_map, beq_iff_eq]

/-- Overwriting an existing key leaves the key column unchanged. -/
theorem keys_map_overwrite (tbl : List MatchRow) (r : MatchRow) :
    matchKeys (tbl.map (fun x => if x.match_id == r.match_id then r else x)) =
      matchKeys tbl := by
  unfold matchKeys
  rw [List.map_map]
  apply List.map_congr_left
  intro x _
  simp only [Function.comp_apply]
  by_cases hxr : (x.match_id == r.match_id) = true
  · rw [if_pos hxr]
    exact (eq_of_beq hxr).symm
  · rw [if_neg hxr]

theorem upsertMatch_keys (tbl : List MatchRow) (r : MatchRow) :
    matchKeys (upsertMatch tbl r) =
      if r.match_id ∈ matchKeys tbl then matchKeys tbl
      else matchKeys tbl ++ [r.match_id] := by
  unfold upsertMatch
  by_cases h : tbl.any (fun x => x.match_id == r.match_id) = true
  · rw [if_pos h, if_pos ((any_key_iff tbl r.match_id).mp h)]
    exact keys_map_overwrite tbl r
  · rw [if_neg h, if_neg (fun hm => h ((any_key_iff tbl r.match_id).mpr hm))]
    simp [matchKeys]

theorem upsertMatch_keys_nodup (tbl : List MatchRow) (r : MatchRow)
    (h : (matchKeys tbl).Nodup) : (matchKeys (upsertMatch tbl r)).Nodup := by
  rw [upsertMatch_keys]
  split
  · exact h
  · rename_i hnm
    simp [List.nodup_append, h, hnm]

theorem mem_keys_upsertMatch_self (tbl : List MatchRow) (r : MatchRow) :
    r.match_id ∈ matchKeys (upsertMatch tbl r) := by
  rw [upsertMatch_keys]
  split
  · assumption
  · simp

theorem mem_keys_upsertMatch_mono (tbl : List MatchRow) (r : MatchRow) (k : Json)
    (h : k ∈ matchKeys tbl) : k ∈ matchKeys (upsertMatch tbl r) := by
  rw [upsertMatch_keys]
  split
  · exact h
  · exact List.mem_append_left _ h

theorem upsertAll_cons (tbl : List MatchRow) (r : MatchRow) (rest : List MatchRow) :
    upsertAll tbl (r :: rest) = upsertAll (upsertMatch tbl r) rest := rfl

theorem mem_keys_upsertAll_mono (rows : List MatchRow) :
    ∀ (tbl : List MatchRow) (k : Json), k ∈ matchKeys tbl →
      k ∈ matchKeys (upsertAll tbl rows) := by
  induction rows with
  | nil => intro tbl k h; exact h
  | cons r rest ih =>
    intro tbl k h
    rw [upsertAll_cons]
    exact ih _ k (mem_keys_upsertMatch_mono tbl r k h)

theorem mem_keys_upsertAll (rows : List MatchRow) :
    ∀ (tbl : List MatchRow), ∀ m ∈ rows, m.match_id ∈ matchKeys (upsertAll tbl rows) := by
  induction rows with
  | nil => intro tbl m hm; exact absurd hm (List.not_mem_nil m)
  | cons r rest ih =>
    intro tbl m hm
    rw [upsertAll_cons]
    rcases List.mem_cons.mp hm with rfl | hm'
    · exact mem_keys_upsertAll_mono rest _ _ (mem_keys_upsertMatch_self tbl m)
    · exact ih _ m hm'

theorem upsertAll_keys_nodup (rows : List MatchRow) :
    ∀ (tbl : List MatchRow), (matchKeys tbl).Nodup →
      (matchKeys (upsertAll tbl rows)).Nodup := by
  induction rows with
  | nil => intro tbl h; exact h
  | cons r rest ih =>
    intro tbl h
    rw [upsertAll_cons]
    exact ih _ (upsertMatch_keys_nodup tbl r h)

/-- The last payload row carrying a given row's key (the row itself when
the payload has none): what a fold of upserts leaves at that key. -/
def lastWithKey (rows : List MatchRow) (x : MatchRow) : MatchRow :=
  (rows.filter (fun m => m.match_id == x.match_id)).getLastD x

theorem upsertMatch_of_mem (tbl : List MatchRow) (r : MatchRow)
    (h : r.match_id ∈ matchKeys tbl) :
    upsertMatch tbl r = tbl.map (fun x => if x.match_id == r.match_id then r else x) := by
  unfold upsertMatch
  rw [if_pos ((any_key_iff tbl r.match_id).mpr h)]

/-- When every payload key is already present, the fold of upserts is a
pointwise overwrite of the table by the last payload row of each key. -/
theorem upsertAll_of_keys_present (rows : List MatchRow) :
    ∀ (tbl : List MatchRow), (∀ m ∈ rows, m.match_id ∈ matchKeys tbl) →
      upsertAll tbl rows = tbl.map (lastWithKey rows) := by
  induction rows with
  | nil =>
    intro tbl _
    rw [show List.map (lastWithKey []) tbl = List.map id tbl from
      List.map_congr_left (fun x _ => by simp [lastWithKey]), List.map_id]
    rfl
  | cons r rest ih =>
    intro tbl h
    rw [upsertAll_cons,
      upsertMatch_of_mem tbl r (h r (List.mem_cons_self r rest)),
      ih _ (by rw [keys_map_overwrite]; exact fun m hm => h m (List.mem_cons_of_mem r hm)),
      List.map_map]
    apply List.map_congr_left
    intro x _
    simp only [Function.comp_apply]
    by_cases hxr : (x.match_id == r.match_id) = true
    · have hxe : x.match_id = r.match_id := eq_of_beq hxr
      rw [if_pos hxr]
      unfold lastWithKey
      rw [hxe, List.filter_cons, if_pos (beq_self_eq_true _), List.getLastD_cons]
    · have hf : (r.match_id == x.match_id) = false :=
        beq_eq_false_iff_ne.mpr (fun he => hxr (beq_iff_eq.mpr he.symm))
      rw [if_neg hxr]
      simp [lastWithKey, List.filter_cons, hf]

theorem eq_of_mem_upsertMatch_key (tbl : List MatchRow) (r x : MatchRow)
    (hx : x ∈ upsertMatch tbl r) :
    x = r ∨ (x ∈ tbl ∧ x.match_id ≠ r.match_id) := by
  unfold upsertMatch at hx
  by_cases h : tbl.any (fun y => y.match_id == r.match_id) = true
  · rw [if_pos h] at hx
    obtain ⟨y, hy, hxy⟩ := List.mem_map.mp hx
    by_cases hyr : (y.match_id == r.match_id) = true
    · rw [if_pos hyr] at hxy
      exact Or.inl hxy.symm
    · rw [if_neg hyr] at hxy
      subst hxy
      exact Or.inr ⟨hy, fun he => hyr (by rw [he]; exact beq_self_eq_true _)⟩
  · rw [if_neg h] at hx
    rcases List.mem_append.mp hx with hxt | hxr
    · refine Or.inr ⟨hxt, fun he => h ?_⟩
      exact List.any_eq_true.mpr ⟨x, hxt, by rw [he]; exact beq_self_eq_true _⟩
    · exact Or.inl (List.mem_singleton.mp hxr)

theorem mem_of_mem_upsertAll_no_key (rows : List MatchRow) :
    ∀ (tbl : List MatchRow) (x : MatchRow), x ∈ upsertAll tbl rows →
      (∀ m ∈ rows, m.match_id ≠ x.match_id) → x ∈ tbl := by
  induction rows with
  | nil => intro tbl x hx _; exact hx
  | cons r rest ih =>
    intro tbl x hx h
    rw [upsertAll_cons] at hx
    have hx' := ih _ x hx (fun m hm => h m (List.mem_cons_of_mem r hm))
    rcases eq_of_mem_upsertMatch_key tbl r x hx' with rfl | ⟨hxt, _⟩
    · exact absurd rfl (h x (List.mem_cons_self x rest))
    · exact hxt

/-- Every row left in the table after a fold of upserts is already the last
payload row of its key. -/
theorem lastWithKey_eq_self_of_mem_upsertAll (rows : List MatchRow) :
    ∀ (tbl : List MatchRow) (x : MatchRow), x ∈ upsertAll tbl rows →
      lastWithKey rows x = x := by
  induction rows with
  | nil => intro tbl x _; simp [lastWithKey]
  | cons r rest ih =>
    intro tbl x hx
    rw [upsertAll_cons] at hx
    have ihx := ih _ x hx
    unfold lastWithKey at ihx ⊢
    by_cases hrx : (r.match_id == x.match_id) = true
    · simp only [List.filter_cons]
      rw [if_pos hrx, List.getLastD_cons]
      cases hfe : rest.filter (fun m => m.match_id == x.match_id) with
      | nil =>
        have hnone : ∀ m ∈ rest, m.match_id ≠ x.match_id := by
          intro m hm he
          exact absurd (by rw [he]; exact beq_self_eq_true _)
            (List.filter_eq_nil_iff.mp hfe m hm)
        have hxmem := mem_of_mem_upsertAll_no_key rest _ x hx hnone
        rcases eq_of_mem_upsertMatch_key tbl r x hxmem with rfl | ⟨_, hne⟩
        · rfl
        · exact absurd (eq_of_beq hrx).symm hne
      | cons b bs =>
        rw [hfe, List.getLastD_cons] at ihx
        rw [List.getLastD_cons]
        exact ihx
    · simp only [List.filter_cons]
      rw [if_neg hrx]
      exact ihx

/-- Re-applying a payload of upserts is a no-op: the table is unchanged by
the second application. -/
theorem upsertAll_idem (tbl rows : List MatchRow) :
    upsertAll (upsertAll tbl rows) rows = upsertAll tbl rows := by
  rw [upsertAll_of_keys_present rows (upsertAll tbl rows)
    (mem_keys_upsertAll rows tbl)]
  conv_rhs => rw [← List.map_id (upsertAll tbl rows)]
  exact List.map_congr_left
    (fun x hx => lastWithKey_eq_self_of_mem_upsertAll rows tbl x hx)

/-- In a table whose key column has no duplicates, a present key identifies
exactly one row. -/
theorem filter_key_length_one (tbl : List MatchRow)
    (hnd : (matchKeys tbl).Nodup) (k : Json) (hk : k ∈ matchKeys tbl) :
    (tbl.filter (fun r => r.match_id == k)).length = 1 := by
  induction tbl with
  | nil => exact absurd hk (by simp [matchKeys])
  | cons a rest ih =>
    simp only [matchKeys, List.map_cons, List.nodup_cons] at hnd
    simp only [matchKeys, List.map_cons, List.mem_cons] at hk
    obtain ⟨hna, hndr⟩ := hnd
    by_cases hak : (a.match_id == k) = true
    · have hake : a.match_id = k := eq_of_beq hak
      have hnil : rest.filter (fun r => r.match_id == k) = [] :=
        List.filter_eq_nil_iff.mpr (fun m hm hbeq =>
          hna (by
            rw [hake, ← eq_of_beq hbeq]
            exact List.mem_map.mpr ⟨m, hm, rfl⟩))
      simp only [List.filter_cons]
      rw [if_pos hak, hnil]
      rfl
    · simp only [List.filter_cons]
      rw [if_neg hak]
      refine ih hndr ?_
      rcases hk with he | hm
      · exact absurd (by rw [he]; exact beq_self_eq_true _) hak
      · exact hm

/-- C4: running the matches sync twice with the same fetched payload is
idempotent.  Given a matches table whose `match_id` column has no
duplicates (its schema declares `match_id INTEGER UNIQUE`), after the
first run the table holds exactly one row per payload `match_id`, and the
second run returns the same table unchanged — upsert by key inserts when
the key is absent and overwrites when it is present. -/
theorem sync_matches_idempotent (now : Nat) (o : HttpOutcome) (db db1 : DB)
    (ms : List MatchRow) (lf l1 : List String)
    (hnd : (matchKeys db.matchesTable).Nodup)
    (hfetch : get_recent_matches now o = Except.ok (ms, lf))
    (h1 : sync_matches_to_supabase now o MatchesWrite.ok db = Except.ok (db1, l1)) :
    (∃ l2, sync_matches_to_supabase now o MatchesWrite.ok db1 = Except.ok (db1, l2)) ∧
    ∀ m ∈ ms, (db1.matchesTable.filter
      (fun r => r.match_id == m.match_id)).length = 1 := by
  simp only [sync_matches_to_supabase, hfetch] at h1 ⊢
  cases ms with
  | nil =>
    simp at h1
    obtain ⟨hdb, -⟩ := h1
    subst hdb
    exact ⟨⟨lf ++ ["No match data to sync"], by simp⟩, by simp⟩
  | cons a as =>
    simp at h1
    obtain ⟨hdb, -⟩ := h1
    subst hdb
    refine ⟨⟨lf ++ ["Synced " ++ toString (a :: as).length ++
      " matches to matches table"], by simp [upsertAll_idem]⟩, ?_⟩
    intro m hm
    exact filter_key_length_one _ (upsertAll_keys_nodup (a :: as) _ hnd)
      m.match_id (mem_keys_upsertAll (a :: as) db.matchesTable m hm)

/-- Witness for C4 at a concrete one-match payload against an initially
empty matches table. -/
theorem sync_matches_idempotent_witness :
    (∃ l2, sync_matches_to_supabase 0 (HttpOutcome.response 200 (some matchesDoc1))
        MatchesWrite.ok (DB.mk [] [matchRow1]) =
      Except.ok (DB.mk [] [matchRow1], l2)) ∧
    ∀ m ∈ [matchRow1], (([matchRow1] : List MatchRow).filter
      (fun r => r.match_id == m.match_id)).length = 1 :=
  sync_matches_idempotent 0 (HttpOutcome.response 200 (some matchesDoc1))
    (DB.mk [] []) (DB.mk [] [matchRow1]) [matchRow1] []
    ["Synced 1 matches to matches table"] (by simp [matchKeys]) rfl rfl

/-! ### C9: when the polling loop triggers the daily sync -/

theorem schedulerFirstRun_window (fuel : Nat) :
    ∀ (t0 R : Nat), t0 < R + 60 → R ≤ t0 + 60 * fuel →
      ∃ t, schedulerFirstRun (fuel + 1) t0 R = some t ∧ R ≤ t ∧ t < R + 60 := by
  induction fuel with
  | zero =>
    intro t0 R h0 hf
    have hle : R ≤ t0 := by omega
    exact ⟨t0, by simp [schedulerFirstRun, hle], hle, h0⟩
  | succ n ih =>
    intro t0 R h0 hf
    by_cases hle : R ≤ t0
    · exact ⟨t0, by simp [schedulerFirstRun, hle], hle, h0⟩
    · obtain ⟨t, ht, hR, hlt⟩ := ih (t0 + 60) R (by omega) (by omega)
      refine ⟨t, ?_, hR, hlt⟩
      simp only [schedulerFirstRun, if_neg hle]
      exact ht

/-- C9: with the pending trigger instant `R` (the next 06:00:00) at or
after the loop's first check `t0`, and checks every 60 seconds with the
loop idle, the daily sync is never started before `R` and is started
strictly less than 60 seconds after `R` — the drift is bounded by the poll
interval.  (`fuel` bounds the number of loop iterations observed; any
count reaching `R` suffices.) -/
theorem scheduler_triggers_within_poll_interval (t0 R fuel : Nat)
    (h0 : t0 ≤ R) (hfuel : R ≤ t0 + 60 * fuel) :
    ∃ t, schedulerFirstRun (fuel + 1) t0 R = some t ∧ R ≤ t ∧ t < R + 60 :=
  schedulerFirstRun_window fuel t0 R (by omega) hfuel

/-- Witness for C9: a loop started 90 seconds before the trigger fires at
30 seconds past the trigger — after it, within the poll interval. -/
theorem scheduler_triggers_within_poll_interval_witness :
    ∃ t, schedulerFirstRun 3 0 90 = some t ∧ 90 ≤ t ∧ t < 90 + 60 :=
  scheduler_triggers_within_poll_interval 0 90 2 (by decide) (by decide)
